import Mathlib

/-!
Shallow embedding of the QR-Code repository's rendering/layout core:
`qrcode/image/base.py` (geometry computation in `BaseImage.__init__`,
`pixel_box`, `is_eye`, `BaseImageWithDrawer.get_drawer`) and
`qrcode/image/pure.py` (`PyPNGImage.rows_iter`, `border_rows_iter`,
`canvas_row`).

Python integers are modelled as `Int`; Python floor division `//` is
`Int.fdiv`.  Pixel values follow the PyPNG 1-bit convention of the code:
`1` is light (white), `0` is dark.  `[1] * n` on a possibly negative `n`
yields the empty list, modelled with `Int.toNat`.
-/

namespace QRCodeModel

/-- `[x] * n` for a Python int `n` (empty when `n <= 0`). -/
def pyRepl (n : Int) (x : Nat) : List Nat := List.replicate n.toNat x

/-- `itertools.chain.from_iterable(f x for x in l)`. -/
def chainFrom (f : α → List β) : List α → List β
  | [] => []
  | x :: xs => f x ++ chainFrom f xs

/-- The geometry fields set on `self` by `BaseImage.__init__`
(`qrcode/image/base.py`). -/
structure Geometry where
  border : Int
  width : Int
  pixel_width : Int
  pixel_height : Int
  text_area_height : Int
  text_gap : Int
  box_size : Int
  pixel_size : Int
  qr_offset_x : Int
  qr_offset_y : Int
  text_offset_y : Int
deriving Repr, DecidableEq

/-- Offset computation shared by both branches of `BaseImage.__init__`
(lines 59-66 of `qrcode/image/base.py`). -/
def finishGeometry (border width pixel_width pixel_height text_area_height
    text_gap box_size pixel_size : Int) : Geometry :=
  let total_content_height := pixel_size + text_gap + text_area_height
  let top_margin := Int.fdiv (pixel_height - total_content_height) 2
  let qr_offset_x := Int.fdiv (pixel_width - pixel_size) 2
  let qr_offset_y := top_margin
  let text_offset_y := qr_offset_y + pixel_size + text_gap
  { border := border, width := width, pixel_width := pixel_width,
    pixel_height := pixel_height, text_area_height := text_area_height,
    text_gap := text_gap, box_size := box_size, pixel_size := pixel_size,
    qr_offset_x := qr_offset_x, qr_offset_y := qr_offset_y,
    text_offset_y := text_offset_y }

/-- `BaseImage.__init__(border, width, box_size, ..., qr_size=...)`.
The `box_size` constructor argument is received but never read by the
Python code, which derives `self.box_size` from `qr_size` or from the
auto-fit constants; we keep the unused parameter to model that.
`none` is returned exactly when Python would raise `ZeroDivisionError`
(`qr_modules == 0`).  The two constants `414` and `471` are the values
of `int(576 * 0.72)` and `int(582 * 0.81)` under IEEE-754 double
arithmetic, the only floating-point steps of the function. -/
def mkGeometry (border width _box_size : Int) (qr_size : Option Int) :
    Option Geometry :=
  let pixel_width : Int := 288 * 2
  let pixel_height : Int := 432 * 2
  let text_area_height : Int := 120 * 2
  let text_gap : Int := 42
  let qr_modules : Int := width + border * 2
  if qr_modules = 0 then none
  else
    match qr_size with
    | some qs =>
        let pixel_size0 : Int := qs
        let box_size : Int := max 1 (Int.fdiv pixel_size0 qr_modules)
        let pixel_size : Int := qr_modules * box_size
        some (finishGeometry border width pixel_width pixel_height
          text_area_height text_gap box_size pixel_size)
    | none =>
        let max_qr_width : Int := 414
        let available_height : Int := pixel_height - text_area_height - text_gap
        let max_qr_height : Int := 471
        let max_qr_size : Int := min max_qr_width max_qr_height
        let box_size : Int := max 1 (Int.fdiv max_qr_size qr_modules)
        let pixel_size : Int := qr_modules * box_size
        have : available_height = 582 := rfl
        some (finishGeometry border width pixel_width pixel_height
          text_area_height text_gap box_size pixel_size)

/-- `BaseImage.pixel_box(row, col)`. -/
def pixel_box (g : Geometry) (row col : Int) : (Int × Int) × (Int × Int) :=
  let x := (col + g.border) * g.box_size + g.qr_offset_x
  let y := (row + g.border) * g.box_size + g.qr_offset_y
  ((x, y), (x + g.box_size - 1, y + g.box_size - 1))

/-- `BaseImage.is_eye(row, col)` (reads `self.width`). -/
def is_eye (width row col : Int) : Bool :=
  (decide (row < 7) && decide (col < 7))
    || (decide (row < 7) && decide (width - col < 8))
    || (decide (width - row < 8) && decide (col < 7))

/-- `PyPNGImage.canvas_row`: a full-width white row. -/
def canvas_row (g : Geometry) : List Nat := pyRepl g.pixel_width 1

/-- The single row built inside `PyPNGImage.border_rows_iter`. -/
def border_row (g : Geometry) : List Nat :=
  pyRepl g.qr_offset_x 1
    ++ pyRepl (g.box_size * (g.width + g.border * 2)) 1
    ++ pyRepl (g.pixel_width - g.qr_offset_x - g.pixel_size) 1

/-- `PyPNGImage.border_rows_iter`. -/
def border_rows_iter (g : Geometry) : List (List Nat) :=
  List.replicate (g.border * g.box_size).toNat (border_row g)

/-- `[not point] * self.box_size`: one module expanded to `box_size`
pixels (dark module → `0`, light module → `1`). -/
def expandPoint (bs : Int) (point : Bool) : List Nat :=
  List.replicate bs.toNat (if point then 0 else 1)

/-- The `qr_row` built for one module row inside `rows_iter`. -/
def qr_row (g : Geometry) (module_row : List Bool) : List Nat :=
  let border_col := pyRepl (g.box_size * g.border) 1
  border_col ++ chainFrom (expandPoint g.box_size) module_row ++ border_col

/-- The `full_row` for one module row inside `rows_iter`. -/
def full_row (g : Geometry) (module_row : List Bool) : List Nat :=
  pyRepl g.qr_offset_x 1 ++ qr_row g module_row
    ++ pyRepl (g.pixel_width - g.qr_offset_x - g.pixel_size) 1

/-- The data section of `rows_iter`: each module row yields `box_size`
copies of its `full_row`. -/
def data_rows (g : Geometry) (modules : List (List Bool)) : List (List Nat) :=
  chainFrom (fun module_row =>
    List.replicate g.box_size.toNat (full_row g module_row)) modules

/-- `PyPNGImage.rows_iter` as the finite list of rows the generator
yields, in order. -/
def rows_iter (g : Geometry) (modules : List (List Bool)) : List (List Nat) :=
  List.replicate g.qr_offset_y.toNat (canvas_row g)
    ++ border_rows_iter g
    ++ data_rows g modules
    ++ border_rows_iter g
    ++ List.replicate (g.pixel_height - g.qr_offset_y - g.pixel_size).toNat
        (canvas_row g)

/-- Total number of dark (`0`) pixels in a row list. -/
def countDark (rows : List (List Nat)) : Nat :=
  (rows.map (List.count 0)).sum

/-- Total number of dark modules in a matrix. -/
def darkModules (m : List (List Bool)) : Nat :=
  (m.map (List.count true)).sum

/-- Membership of a pixel in the inclusive rectangle `pixel_box g row col`. -/
def inPixelBox (g : Geometry) (row col : Int) (p : Int × Int) : Prop :=
  (pixel_box g row col).1.1 ≤ p.1 ∧ p.1 ≤ (pixel_box g row col).2.1 ∧
  (pixel_box g row col).1.2 ≤ p.2 ∧ p.2 ≤ (pixel_box g row col).2.2

/-- The symbol's interior data region, in the spec's words: the pixel
rectangle covered by the `width × width` module grid inside the border. -/
def inInterior (g : Geometry) (p : Int × Int) : Prop :=
  g.border * g.box_size + g.qr_offset_x ≤ p.1 ∧
  p.1 < (g.border + g.width) * g.box_size + g.qr_offset_x ∧
  g.border * g.box_size + g.qr_offset_y ≤ p.2 ∧
  p.2 < (g.border + g.width) * g.box_size + g.qr_offset_y

/-- A constructed module-drawer instance.  The concrete drawer classes
live outside the rendering core (`qrcode/image/styles/...`), so an
instance is modelled as the class it was built from paired with the
keyword arguments passed to the constructor. -/
structure DrawerInstance where
  cls : String
  init_kwargs : List (String × String)
deriving Repr, DecidableEq

/-- `DrawerAliases`: mapping from alias names to
`(drawer class, default constructor kwargs)` (`qrcode/image/base.py`). -/
abbrev DrawerAliases := List (String × (String × List (String × String)))

/-- The `module_drawer`/`eye_drawer` argument of
`BaseImageWithDrawer.__init__`: a drawer instance, an alias name
(string), or `None`. -/
inductive DrawerArg where
  | inst (d : DrawerInstance)
  | name (s : String)
  | noDrawer
deriving Repr, DecidableEq

/-- `BaseImageWithDrawer.get_drawer`: a non-string argument is returned
unchanged; a string is looked up in `drawer_aliases` (a missing key
raises `KeyError`, the dict-subscript error) and the registered class is
called with the registered kwargs. -/
def get_drawer (aliases : DrawerAliases) :
    DrawerArg → Except String (Option DrawerInstance)
  | .inst d => .ok (some d)
  | .noDrawer => .ok none
  | .name s =>
      match aliases.lookup s with
      | some (cls, kwargs) => .ok (some ⟨cls, kwargs⟩)
      | none => .error "KeyError"

/-- `BaseImageWithDrawer.__init__` followed by `BaseImage.__init__`:
both drawer aliases are resolved (each falling back to the default
drawer class when the argument is `None`) before `super().__init__`
computes the geometry, builds the image and draws anything, so an
unknown alias surfaces before any geometry field exists.  The result
carries the resolved module drawer, eye drawer and geometry. -/
def mkImageWithDrawer (aliases : DrawerAliases) (default_cls : String)
    (module_drawer eye_drawer : DrawerArg)
    (border width box_size : Int) (qr_size : Option Int) :
    Except String (DrawerInstance × DrawerInstance × Geometry) := do
  let md ← get_drawer aliases module_drawer
  let ed ← get_drawer aliases eye_drawer
  let md := md.getD ⟨default_cls, []⟩
  let ed := ed.getD ⟨default_cls, []⟩
  match mkGeometry border width box_size qr_size with
  | some g => .ok (md, ed, g)
  | none => .error "ZeroDivisionError"

/-- The geometry computed for `border=0, width=1` in auto-fit mode. -/
def gAuto1 : Geometry :=
  { border := 0, width := 1, pixel_width := 576, pixel_height := 864,
    text_area_height := 240, text_gap := 42, box_size := 414,
    pixel_size := 414, qr_offset_x := 81, qr_offset_y := 84,
    text_offset_y := 540 }

/-- The geometry computed for `border=0, width=1, qr_size=100`. -/
def gSized100 : Geometry :=
  { border := 0, width := 1, pixel_width := 576, pixel_height := 864,
    text_area_height := 240, text_gap := 42, box_size := 100,
    pixel_size := 100, qr_offset_x := 238, qr_offset_y := 241,
    text_offset_y := 383 }

/-- The geometry computed for `border=4, width=21` in auto-fit mode. -/
def gScenario21 : Geometry :=
  { border := 4, width := 21, pixel_width := 576, pixel_height := 864,
    text_area_height := 240, text_gap := 42, box_size := 14,
    pixel_size := 406, qr_offset_x := 85, qr_offset_y := 88,
    text_offset_y := 536 }

/-- The geometry computed for `border=0, width=3` in auto-fit mode. -/
def gLight3 : Geometry :=
  { border := 0, width := 3, pixel_width := 576, pixel_height := 864,
    text_area_height := 240, text_gap := 42, box_size := 138,
    pixel_size := 414, qr_offset_x := 81, qr_offset_y := 84,
    text_offset_y := 540 }

/-- The geometry computed for `border=0, width=583` in auto-fit mode:
the symbol overflows the canvas and the offsets go negative. -/
def gWide583 : Geometry :=
  { border := 0, width := 583, pixel_width := 576, pixel_height := 864,
    text_area_height := 240, text_gap := 42, box_size := 1,
    pixel_size := 583, qr_offset_x := -4, qr_offset_y := -1,
    text_offset_y := 624 }

/-- The geometry computed for `border=1, width=0` in auto-fit mode:
construction succeeds for a non-positive width. -/
def gZeroWidth : Geometry :=
  { border := 1, width := 0, pixel_width := 576, pixel_height := 864,
    text_area_height := 240, text_gap := 42, box_size := 207,
    pixel_size := 414, qr_offset_x := 81, qr_offset_y := 84,
    text_offset_y := 540 }

/-! ### Helper lemmas about the constructed geometry -/

theorem mkGeometry_fields {border width bs qs g}
    (h : mkGeometry border width bs qs = some g) :
    g.border = border ∧ g.width = width ∧ g.pixel_width = 576 ∧
    g.pixel_height = 864 ∧ g.text_area_height = 240 ∧ g.text_gap = 42 ∧
    1 ≤ g.box_size ∧ g.pixel_size = (width + border * 2) * g.box_size ∧
    g.qr_offset_x = Int.fdiv (576 - g.pixel_size) 2 ∧
    g.qr_offset_y = Int.fdiv (864 - (g.pixel_size + 42 + 240)) 2 ∧
    g.text_offset_y = g.qr_offset_y + g.pixel_size + 42 := by
  unfold mkGeometry at h
  dsimp only at h
  split at h
  · exact absurd h (by simp)
  · cases qs with
    | some q =>
        simp only [Option.some.injEq] at h
        subst h
        refine ⟨rfl, rfl, rfl, rfl, rfl, rfl, le_max_left _ _, rfl, rfl, ?_, rfl⟩
        simp [finishGeometry]
    | none =>
        simp only [Option.some.injEq] at h
        subst h
        refine ⟨rfl, rfl, rfl, rfl, rfl, rfl, le_max_left _ _, rfl, rfl, ?_, rfl⟩
        simp [finishGeometry]

theorem pyRepl_length (n : Int) (x : Nat) : (pyRepl n x).length = n.toNat := by
  simp [pyRepl]

theorem chainFrom_length (f : α → List β) (l : List α) :
    (chainFrom f l).length = (l.map fun x => (f x).length).sum := by
  induction l with
  | nil => rfl
  | cons x xs ih => simp [chainFrom, ih]

theorem mem_chainFrom {f : α → List β} {l : List α} {b : β} :
    b ∈ chainFrom f l ↔ ∃ a ∈ l, b ∈ f a := by
  induction l with
  | nil => simp [chainFrom]
  | cons x xs ih => simp [chainFrom, ih]

theorem count_chainFrom [DecidableEq β] (f : α → List β) (l : List α) (b : β) :
    (chainFrom f l).count b = (l.map fun x => (f x).count b).sum := by
  induction l with
  | nil => rfl
  | cons x xs ih => simp [chainFrom, ih, List.count_append]

theorem count_pyRepl_zero (n : Int) : (pyRepl n 1).count 0 = 0 := by
  simp [pyRepl, List.count_replicate]

theorem data_rows_length (g : Geometry) (m : List (List Bool)) :
    (data_rows g m).length = m.length * g.box_size.toNat := by
  unfold data_rows
  rw [chainFrom_length]
  induction m with
  | nil => simp
  | cons r rs ih => simp_all [Nat.succ_mul, Nat.add_comm]

theorem mem_data_rows {g : Geometry} {m : List (List Bool)} {row : List Nat}
    (h : row ∈ data_rows g m) : ∃ mr ∈ m, row = full_row g mr := by
  unfold data_rows at h
  rcases mem_chainFrom.mp h with ⟨mr, hmr, hrow⟩
  exact ⟨mr, hmr, (List.eq_of_mem_replicate hrow)⟩

theorem mem_rows_iter {g : Geometry} {m : List (List Bool)} {row : List Nat}
    (h : row ∈ rows_iter g m) :
    row = canvas_row g ∨ row = border_row g ∨ ∃ mr ∈ m, row = full_row g mr := by
  unfold rows_iter at h
  simp only [List.mem_append] at h
  rcases h with ((((h | h) | h) | h) | h)
  · exact .inl (List.eq_of_mem_replicate h)
  · exact .inr (.inl (List.eq_of_mem_replicate h))
  · exact .inr (.inr (mem_data_rows h))
  · exact .inr (.inl (List.eq_of_mem_replicate h))
  · exact .inl (List.eq_of_mem_replicate h)

theorem rows_iter_length (g : Geometry) (m : List (List Bool)) :
    (rows_iter g m).length =
      g.qr_offset_y.toNat + (g.border * g.box_size).toNat
        + m.length * g.box_size.toNat + (g.border * g.box_size).toNat
        + (g.pixel_height - g.qr_offset_y - g.pixel_size).toNat := by
  simp [rows_iter, border_rows_iter, data_rows_length]
  ring

/-- Dark-pixel count of the expansion of one module. -/
theorem count_expandPoint (bs : Int) (point : Bool) :
    (expandPoint bs point).count 0 = if point then bs.toNat else 0 := by
  cases point <;> simp [expandPoint, List.count_replicate]

theorem count_qr_row (g : Geometry) (mr : List Bool) :
    (qr_row g mr).count 0 = g.box_size.toNat * mr.count true := by
  unfold qr_row
  simp only [List.count_append, count_pyRepl_zero, count_chainFrom]
  induction mr with
  | nil => rfl
  | cons p ps ih =>
      cases p <;>
        simp_all [count_expandPoint, List.count_cons, Nat.mul_add, Nat.add_comm]

theorem count_full_row (g : Geometry) (mr : List Bool) :
    (full_row g mr).count 0 = g.box_size.toNat * mr.count true := by
  simp [full_row, List.count_append, count_pyRepl_zero, count_qr_row]

theorem countDark_border_rows (g : Geometry) :
    countDark (border_rows_iter g) = 0 := by
  simp [countDark, border_rows_iter, border_row, List.count_append,
    count_pyRepl_zero, List.map_replicate]

theorem countDark_data_rows (g : Geometry) (m : List (List Bool)) :
    countDark (data_rows g m) =
      g.box_size.toNat * g.box_size.toNat * darkModules m := by
  unfold data_rows countDark darkModules
  induction m with
  | nil => rfl
  | cons r rs ih =>
      simp only [chainFrom, List.map_append, List.sum_append, List.map_cons,
        List.sum_cons, List.map_replicate, count_full_row,
        List.sum_replicate, smul_eq_mul] at *
      rw [ih]
      ring

theorem countDark_rows_iter (g : Geometry) (m : List (List Bool)) :
    countDark (rows_iter g m) =
      g.box_size.toNat * g.box_size.toNat * darkModules m := by
  have hc : ∀ n : Int, countDark (List.replicate n.toNat (canvas_row g)) = 0 := by
    intro n
    simp [countDark, canvas_row, count_pyRepl_zero, List.map_replicate]
  simp only [rows_iter, countDark, List.map_append, List.sum_append]
  have h1 := hc g.qr_offset_y
  have h2 := hc (g.pixel_height - g.qr_offset_y - g.pixel_size)
  have h3 := countDark_border_rows g
  have h4 := countDark_data_rows g m
  simp only [countDark] at h1 h2 h3 h4
  omega

theorem mkGeometry_box_size_auto {border width bs g}
    (h : mkGeometry border width bs none = some g) :
    g.box_size = max 1 (Int.fdiv 414 (width + border * 2)) := by
  unfold mkGeometry at h
  dsimp only at h
  split at h
  · exact absurd h (by simp)
  · simp only [Option.some.injEq] at h
    subst h
    rfl

theorem mkGeometry_box_size_sized {border width bs q g}
    (h : mkGeometry border width bs (some q) = some g) :
    g.box_size = max 1 (Int.fdiv q (width + border * 2)) := by
  unfold mkGeometry at h
  dsimp only at h
  split at h
  · exact absurd h (by simp)
  · simp only [Option.some.injEq] at h
    subst h
    rfl

theorem toNat_mul_of_nonneg {a b : Int} (ha : 0 ≤ a) (hb : 0 ≤ b) :
    (a * b).toNat = a.toNat * b.toNat := by
  have h3 : ((a * b).toNat : Int) = ((a.toNat * b.toNat : Nat) : Int) := by
    push_cast
    rw [Int.toNat_of_nonneg ha, Int.toNat_of_nonneg hb,
      Int.toNat_of_nonneg (mul_nonneg ha hb)]
  exact_mod_cast h3

theorem chainFrom_expandPoint_length (bs : Int) (mr : List Bool) :
    (chainFrom (expandPoint bs) mr).length = mr.length * bs.toNat := by
  induction mr with
  | nil => simp [chainFrom]
  | cons p ps ih =>
      simp only [chainFrom, expandPoint, List.length_append,
        List.length_replicate, List.length_cons, ih]
      ring

/-- Bounds on the offsets whenever the computed symbol fits the canvas
horizontally (`pixel_size <= 576`). -/
theorem mkGeometry_fits {border width bs qs g}
    (h : mkGeometry border width bs qs = some g)
    (hb : 0 ≤ border) (hw : 1 ≤ width) (hfit : g.pixel_size ≤ 576) :
    1 ≤ g.pixel_size ∧ 0 ≤ g.qr_offset_x ∧
    g.qr_offset_x + g.pixel_size ≤ 576 ∧
    3 ≤ g.qr_offset_y ∧ g.qr_offset_y + g.pixel_size + 282 ≤ 864 := by
  obtain ⟨-, -, -, -, -, -, hbs1, hp, hoX, hoY, -⟩ := mkGeometry_fields h
  have hM : (1 : Int) ≤ width + border * 2 := by omega
  have hp1 : 1 ≤ g.pixel_size := by
    rw [hp]
    have := mul_le_mul hM hbs1 (by norm_num) (by omega)
    simpa using this
  rw [Int.fdiv_eq_ediv _ (by norm_num)] at hoX hoY
  refine ⟨hp1, ?_, ?_, ?_, ?_⟩ <;> omega

/-- In auto-fit mode the symbol fits the canvas as soon as the module
count does not exceed the canvas width. -/
theorem mkGeometry_pixel_size_auto_le {border width bs g}
    (h : mkGeometry border width bs none = some g)
    (hb : 0 ≤ border) (hw : 1 ≤ width)
    (hfit : width + border * 2 ≤ 576) :
    g.pixel_size ≤ 576 := by
  obtain ⟨-, -, -, -, -, -, -, hp, -, -, -⟩ := mkGeometry_fields h
  have hbs := mkGeometry_box_size_auto h
  have hM0 : (0 : Int) < width + border * 2 := by omega
  rw [Int.fdiv_eq_ediv _ (by omega)] at hbs
  rcases le_total ((414 : Int) / (width + border * 2)) 1 with hle | hge
  · have hone : g.box_size = 1 := by
      rw [hbs]
      omega
    rw [hp, hone, mul_one]
    exact hfit
  · have hdiv : g.box_size = 414 / (width + border * 2) := by
      rw [hbs]
      omega
    rw [hp, hdiv, mul_comm]
    have h414 := Int.ediv_mul_le 414 (show width + border * 2 ≠ 0 by omega)
    omega

/-- All three kinds of rows produced by `rows_iter` have length exactly
`pixel_width` when the symbol fits the canvas. -/
theorem row_lengths_of_fits {border width bs qs g}
    (h : mkGeometry border width bs qs = some g)
    (hb : 0 ≤ border) (hw : 1 ≤ width) (hfit : g.pixel_size ≤ 576) :
    (canvas_row g).length = 576 ∧ (border_row g).length = 576 ∧
    ∀ mr : List Bool, mr.length = width.toNat →
      (full_row g mr).length = 576 := by
  obtain ⟨hbo, hwi, hpw, -, -, -, hbs1, hp, -, -, -⟩ := mkGeometry_fields h
  obtain ⟨hp1, hx0, hx1, -, -⟩ := mkGeometry_fits h hb hw hfit
  have hu : 0 ≤ border * g.box_size := mul_nonneg hb (by omega)
  have hv : 0 ≤ width * g.box_size := mul_nonneg (by omega) (by omega)
  have hrel : g.pixel_size = width * g.box_size + 2 * (border * g.box_size) := by
    rw [hp]
    ring
  refine ⟨?_, ?_, ?_⟩
  · simp [canvas_row, pyRepl_length, hpw]
  · have hsec : g.box_size * (g.width + g.border * 2) =
        width * g.box_size + 2 * (border * g.box_size) := by
      rw [hwi, hbo]
      ring
    simp only [border_row, List.length_append, pyRepl_length, hpw, hsec]
    omega
  · intro mr hmr
    have hcol : g.box_size * g.border = border * g.box_size := by
      rw [hbo]
      ring
    have hexp : (chainFrom (expandPoint g.box_size) mr).length =
        (width * g.box_size).toNat := by
      rw [chainFrom_expandPoint_length, hmr,
        toNat_mul_of_nonneg (by omega : (0:Int) ≤ width) (by omega)]
    simp only [full_row, qr_row, List.length_append, pyRepl_length, hpw,
      hcol, hexp]
    omega

/-- `rows_iter` emits exactly `pixel_height` rows when the symbol fits
the canvas. -/
theorem rows_iter_length_of_fits {border width bs qs g}
    (h : mkGeometry border width bs qs = some g) (m : List (List Bool))
    (hb : 0 ≤ border) (hw : 1 ≤ width) (hfit : g.pixel_size ≤ 576)
    (hm : m.length = width.toNat) :
    (rows_iter g m).length = 864 := by
  obtain ⟨hbo, hwi, -, hph, -, -, hbs1, hp, -, -, -⟩ := mkGeometry_fields h
  obtain ⟨hp1, -, -, hy3, hy1⟩ := mkGeometry_fits h hb hw hfit
  have hu : 0 ≤ border * g.box_size := mul_nonneg hb (by omega)
  have hv : 0 ≤ width * g.box_size := mul_nonneg (by omega) (by omega)
  have hrel : g.pixel_size = width * g.box_size + 2 * (border * g.box_size) := by
    rw [hp]
    ring
  have hdata : m.length * g.box_size.toNat = (width * g.box_size).toNat := by
    rw [hm, toNat_mul_of_nonneg (by omega : (0:Int) ≤ width) (by omega)]
  have hbord : g.border * g.box_size = border * g.box_size := by rw [hbo]
  rw [rows_iter_length, hdata, hbord, hph]
  omega

theorem inPixelBox_iff (g : Geometry) (row col : Int) (p : Int × Int) :
    inPixelBox g row col p ↔
      ((col + g.border) * g.box_size + g.qr_offset_x ≤ p.1 ∧
       p.1 ≤ (col + g.border) * g.box_size + g.qr_offset_x + g.box_size - 1 ∧
       (row + g.border) * g.box_size + g.qr_offset_y ≤ p.2 ∧
       p.2 ≤ (row + g.border) * g.box_size + g.qr_offset_y + g.box_size - 1) :=
  Iff.rfl

theorem inInterior_iff (g : Geometry) (p : Int × Int) :
    inInterior g p ↔
      (g.border * g.box_size + g.qr_offset_x ≤ p.1 ∧
       p.1 < (g.border + g.width) * g.box_size + g.qr_offset_x ∧
       g.border * g.box_size + g.qr_offset_y ≤ p.2 ∧
       p.2 < (g.border + g.width) * g.box_size + g.qr_offset_y) :=
  Iff.rfl

/-- Two distinct cells along one axis occupy disjoint pixel
intervals. -/
theorem box_interval_disjoint {bs b o a1 a2 x : Int} (hbs : 1 ≤ bs)
    (hne : a1 ≠ a2)
    (h1 : (a1 + b) * bs + o ≤ x) (h2 : x ≤ (a1 + b) * bs + o + bs - 1)
    (h3 : (a2 + b) * bs + o ≤ x) (h4 : x ≤ (a2 + b) * bs + o + bs - 1) :
    False := by
  rcases lt_or_gt_of_ne hne with h | h
  · have key : (a1 + b + 1) * bs ≤ (a2 + b) * bs :=
      mul_le_mul_of_nonneg_right (by omega) (by omega)
    have e1 : (a1 + b + 1) * bs = (a1 + b) * bs + bs := by ring
    omega
  · have key : (a2 + b + 1) * bs ≤ (a1 + b) * bs :=
      mul_le_mul_of_nonneg_right (by omega) (by omega)
    have e1 : (a2 + b + 1) * bs = (a2 + b) * bs + bs := by ring
    omega

/-- Every pixel coordinate in the data band along one axis falls into
the interval of exactly one cell index; this gives existence. -/
theorem box_interval_cover {bs b o W x : Int} (hbs : 1 ≤ bs)
    (hlo : b * bs + o ≤ x) (hhi : x < (b + W) * bs + o) :
    ∃ a : Int, 0 ≤ a ∧ a < W ∧ (a + b) * bs + o ≤ x ∧
      x ≤ (a + b) * bs + o + bs - 1 := by
  set d : Int := x - (b * bs + o) with hd
  have hd0 : 0 ≤ d := by omega
  have hdW : d < W * bs := by
    have e : (b + W) * bs = b * bs + W * bs := by ring
    omega
  have hqd : bs * (d / bs) + d % bs = d := Int.ediv_add_emod d bs
  have hr0 : 0 ≤ d % bs := Int.emod_nonneg d (by omega)
  have hrb : d % bs < bs := Int.emod_lt_of_pos d (by omega)
  have hq0 : 0 ≤ d / bs := Int.ediv_nonneg hd0 (by omega)
  have hqW : d / bs < W := by
    by_contra hcon
    push_neg at hcon
    have hle : W * bs ≤ d / bs * bs :=
      mul_le_mul_of_nonneg_right hcon (by omega)
    have e : d / bs * bs = bs * (d / bs) := by ring
    omega
  have e : (d / bs + b) * bs = bs * (d / bs) + b * bs := by ring
  exact ⟨d / bs, hq0, hqW, by omega, by omega⟩

/-! ### Claim theorems -/

/-- C2: for every geometry produced by construction (any `border ≥ 0`,
`width ≥ 1`, with or without a requested target pixel size),
`pixel_size = (width + 2*border) * box_size` holds exactly: `box_size`
is obtained by integer floor division and `pixel_size` is recomputed
from it, never the reverse. -/
theorem C2_pixel_size_exact (border width bs : Int) (qs : Option Int)
    (g : Geometry) (hb : 0 ≤ border) (hw : 1 ≤ width)
    (hg : mkGeometry border width bs qs = some g) :
    g.pixel_size = (g.width + 2 * g.border) * g.box_size := by
  obtain ⟨hbo, hwi, -, -, -, -, -, hp, -, -, -⟩ := mkGeometry_fields hg
  rw [hp, hbo, hwi]
  ring

theorem C2_pixel_size_exact_witness :
    gAuto1.pixel_size = (gAuto1.width + 2 * gAuto1.border) * gAuto1.box_size :=
  C2_pixel_size_exact 0 1 1 none gAuto1 (by decide) (by decide) (by decide)

/-- C3: when a target pixel size is supplied,
`box_size = max(1, target // (width + 2*border))` and then
`pixel_size = (width + 2*border) * box_size`; a too-small target clamps
`box_size` to `1` instead of failing.  The witness instantiates the
target-100 / width-1 / border-0 scenario, where `box_size = 100` and
`pixel_size = 100` exactly. -/
theorem C3_target_size (border width bs qsize : Int) (g : Geometry)
    (hb : 0 ≤ border) (hw : 1 ≤ width)
    (hg : mkGeometry border width bs (some qsize) = some g) :
    g.box_size = max 1 (Int.fdiv qsize (width + 2 * border)) ∧
    g.pixel_size = (width + 2 * border) * g.box_size ∧
    1 ≤ g.box_size := by
  obtain ⟨-, -, -, -, -, -, hbs1, hp, -, -, -⟩ := mkGeometry_fields hg
  have hcomm : width + border * 2 = width + 2 * border := by ring
  have hbs := mkGeometry_box_size_sized hg
  rw [hcomm] at hbs hp
  exact ⟨hbs, hp, hbs1⟩

theorem C3_target_size_witness :
    (gSized100.box_size = max 1 (Int.fdiv 100 (1 + 2 * 0)) ∧
      gSized100.pixel_size = (1 + 2 * 0) * gSized100.box_size ∧
      1 ≤ gSized100.box_size) ∧
    gSized100.box_size = 100 ∧ gSized100.pixel_size = 100 :=
  ⟨C3_target_size 0 1 1 100 gSized100 (by decide) (by decide) (by decide),
    by decide, by decide⟩

/-- C5 counterexample: constructing with `width = 0 ≤ 0` (and
`border = 1`) does not fail at all: it succeeds and produces all
geometry fields, so no `ConfigurationError` is raised for non-positive
width. -/
theorem C5_counterexample : mkGeometry 1 0 1 none = some gZeroWidth := by
  decide

/-- C5 (amended): geometry construction performs no width validation and
raises no `ConfigurationError`; it succeeds for every `width` (positive
or not) as long as `width + 2*border ≠ 0`, producing all geometry
fields, and the only construction failure is Python's
`ZeroDivisionError` when `width + 2*border = 0`. -/
theorem C5_no_width_validation (border width bs : Int) (qs : Option Int)
    (h : width + border * 2 ≠ 0) :
    (mkGeometry border width bs qs).isSome = true := by
  unfold mkGeometry
  dsimp only
  rw [if_neg h]
  cases qs <;> rfl

theorem C5_no_width_validation_witness :
    (mkGeometry 1 0 1 none).isSome = true :=
  C5_no_width_validation 1 0 1 none (by decide)

/-- C8: the eye predicate is exactly the stated pure formula, and on a
21×21 (version-1-sized) grid it accepts the three finder-pattern
corners `(0,0)`, `(0,20)`, `(20,0)` and rejects the center module
`(10,10)`. -/
theorem C8_is_eye_spec :
    (∀ width row col : Int, is_eye width row col = true ↔
      ((row < 7 ∧ col < 7) ∨ (row < 7 ∧ width - col < 8) ∨
        (width - row < 8 ∧ col < 7))) ∧
    is_eye 21 0 0 = true ∧ is_eye 21 0 20 = true ∧
    is_eye 21 20 0 = true ∧ is_eye 21 10 10 = false := by
  refine ⟨?_, by decide, by decide, by decide, by decide⟩
  intro width row col
  simp only [is_eye, Bool.or_eq_true, Bool.and_eq_true, decide_eq_true_eq]
  tauto

/-- C1 counterexample: for the valid combination `border=0, width=583,
box_size=1` (auto-fit gives `box_size=1`, `pixel_size=583`, negative
offsets) the streaming backend emits 865 rows, not
`pixel_height = 864`. -/
theorem C1_counterexample :
    mkGeometry 0 583 1 none = some gWide583 ∧
    (rows_iter gWide583
        (List.replicate 583 (List.replicate 583 false))).length ≠
      Int.toNat gWide583.pixel_height := by
  refine ⟨by decide, ?_⟩
  rw [rows_iter_length]
  simp only [List.length_replicate]
  decide

/-- C1 (amended): for every `border ≥ 0`, `width ≥ 1` (including
`width = 1, border = 0`, any `box_size` argument) such that the symbol
fits the canvas (`width + 2*border ≤ 576`, which holds for every real
QR size), `rows_iter` over a square `width × width` matrix produces
exactly `pixel_height` rows, each a list of exactly `pixel_width`
pixels.  Without the fit condition the invariant fails
(`C1_counterexample`). -/
theorem C1_rows_shape (border width bs : Int) (g : Geometry)
    (m : List (List Bool))
    (hb : 0 ≤ border) (hw : 1 ≤ width) (hfit : width + border * 2 ≤ 576)
    (hg : mkGeometry border width bs none = some g)
    (hm : m.length = width.toNat)
    (hsq : ∀ mr ∈ m, mr.length = width.toNat) :
    (rows_iter g m).length = Int.toNat g.pixel_height ∧
    ∀ row ∈ rows_iter g m, row.length = Int.toNat g.pixel_width := by
  have hfit2 : g.pixel_size ≤ 576 := mkGeometry_pixel_size_auto_le hg hb hw hfit
  obtain ⟨-, -, hpw, hph, -, -, -, -, -, -, -⟩ := mkGeometry_fields hg
  constructor
  · rw [rows_iter_length_of_fits hg m hb hw hfit2 hm, hph]
    rfl
  · intro row hrow
    obtain ⟨hc, hbr, hfr⟩ := row_lengths_of_fits hg hb hw hfit2
    rcases mem_rows_iter hrow with h1 | h1 | ⟨mr, hmr, h1⟩
    · rw [h1, hpw]
      exact hc
    · rw [h1, hpw]
      exact hbr
    · rw [h1, hpw]
      exact hfr mr (hsq mr hmr)

theorem C1_rows_shape_witness :
    (rows_iter gAuto1 [[false]]).length = Int.toNat gAuto1.pixel_height ∧
    ∀ row ∈ rows_iter gAuto1 [[false]],
      row.length = Int.toNat gAuto1.pixel_width :=
  C1_rows_shape 0 1 1 gAuto1 [[false]] (by decide) (by decide) (by decide)
    (by decide) (by decide) (by decide)

/-- C4 counterexample: with `width=21, border=4, box_size=2` the code
computes `pixel_size = 406`, not `(21+8)*2 = 58`: the `box_size`
constructor argument is ignored and auto-fit picks `box_size = 14`. -/
theorem C4_counterexample :
    (mkGeometry 4 21 2 none).map Geometry.pixel_size = some 406 ∧
    (mkGeometry 4 21 2 none).map Geometry.pixel_size ≠ some 58 := by
  constructor <;> decide

/-- C4 (amended): constructing with `width=21, border=4` (the `box_size`
argument, `2` in the scenario, is ignored) yields `box_size = 14` and
`pixel_size = 29 * 14 = 406`, and the streaming backend's row count for
that geometry over a 21-row matrix equals the fixed `pixel_height`
constant regardless of that value. -/
theorem C4_scenario (bs : Int) (g : Geometry) (m : List (List Bool))
    (hg : mkGeometry 4 21 bs none = some g) (hm : m.length = 21) :
    g.pixel_size = 406 ∧ g.box_size = 14 ∧
    (rows_iter g m).length = Int.toNat g.pixel_height := by
  have hbs : mkGeometry 4 21 bs none = mkGeometry 4 21 0 none := rfl
  rw [hbs] at hg
  have h2 : mkGeometry 4 21 0 none = some gScenario21 := by decide
  rw [h2] at hg
  obtain rfl : gScenario21 = g := Option.some.inj hg
  refine ⟨by decide, by decide, ?_⟩
  exact (rows_iter_length_of_fits h2 m (by decide) (by decide) (by decide) hm)

theorem C4_scenario_witness :
    gScenario21.pixel_size = 406 ∧ gScenario21.box_size = 14 ∧
    (rows_iter gScenario21
        (List.replicate 21 (List.replicate 21 false))).length =
      Int.toNat gScenario21.pixel_height :=
  C4_scenario 2 gScenario21 (List.replicate 21 (List.replicate 21 false))
    (by decide) (by simp)

/-- C6: `pixel_box(row, col)` is exactly
`((x, y), (x + box_size - 1, y + box_size - 1))` with
`x = (col + border) * box_size + qr_offset_x` and
`y = (row + border) * box_size + qr_offset_y`; the inclusive rectangles
of two distinct cells of the `width × width` grid are disjoint; and
their union tiles the symbol's interior data region exactly (a pixel
lies in the region iff it lies in some cell's box). -/
theorem C6_pixel_box_tiling (g : Geometry) (hbs : 1 ≤ g.box_size) :
    (∀ row col : Int, pixel_box g row col =
      (((col + g.border) * g.box_size + g.qr_offset_x,
        (row + g.border) * g.box_size + g.qr_offset_y),
       ((col + g.border) * g.box_size + g.qr_offset_x + g.box_size - 1,
        (row + g.border) * g.box_size + g.qr_offset_y + g.box_size - 1))) ∧
    (∀ r1 c1 r2 c2 : Int, 0 ≤ r1 → r1 < g.width → 0 ≤ c1 → c1 < g.width →
      0 ≤ r2 → r2 < g.width → 0 ≤ c2 → c2 < g.width →
      (r1, c1) ≠ (r2, c2) →
      ∀ p : Int × Int, ¬(inPixelBox g r1 c1 p ∧ inPixelBox g r2 c2 p)) ∧
    (∀ p : Int × Int, inInterior g p ↔
      ∃ r c : Int, 0 ≤ r ∧ r < g.width ∧ 0 ≤ c ∧ c < g.width ∧
        inPixelBox g r c p) := by
  refine ⟨fun row col => rfl, ?_, ?_⟩
  · intro r1 c1 r2 c2 hr10 hr1w hc10 hc1w hr20 hr2w hc20 hc2w hne p hcon
    obtain ⟨h1, h2⟩ := hcon
    rw [inPixelBox_iff] at h1 h2
    obtain ⟨h1a, h1b, h1c, h1d⟩ := h1
    obtain ⟨h2a, h2b, h2c, h2d⟩ := h2
    have hne' : r1 ≠ r2 ∨ c1 ≠ c2 := by
      by_contra hcc
      push_neg at hcc
      exact hne (by rw [hcc.1, hcc.2])
    rcases hne' with hr | hc
    · exact box_interval_disjoint hbs hr h1c h1d h2c h2d
    · exact box_interval_disjoint hbs hc h1a h1b h2a h2b
  · intro p
    rw [inInterior_iff]
    constructor
    · rintro ⟨hx1, hx2, hy1, hy2⟩
      obtain ⟨c, hc0, hcW, hcx1, hcx2⟩ := box_interval_cover hbs hx1 hx2
      obtain ⟨r, hr0, hrW, hry1, hry2⟩ := box_interval_cover hbs hy1 hy2
      exact ⟨r, c, hr0, hrW, hc0, hcW,
        (inPixelBox_iff g r c p).mpr ⟨hcx1, hcx2, hry1, hry2⟩⟩
    · rintro ⟨r, c, hr0, hrW, hc0, hcW, hbox⟩
      rw [inPixelBox_iff] at hbox
      obtain ⟨hx1, hx2, hy1, hy2⟩ := hbox
      have hcb : 0 ≤ c * g.box_size := mul_nonneg hc0 (by omega)
      have hrb : 0 ≤ r * g.box_size := mul_nonneg hr0 (by omega)
      have hcu : (c + g.border + 1) * g.box_size ≤
          (g.border + g.width) * g.box_size :=
        mul_le_mul_of_nonneg_right (by omega) (by omega)
      have hru : (r + g.border + 1) * g.box_size ≤
          (g.border + g.width) * g.box_size :=
        mul_le_mul_of_nonneg_right (by omega) (by omega)
      have ec1 : (c + g.border) * g.box_size =
          c * g.box_size + g.border * g.box_size := by ring
      have ec2 : (c + g.border + 1) * g.box_size =
          (c + g.border) * g.box_size + g.box_size := by ring
      have er1 : (r + g.border) * g.box_size =
          r * g.box_size + g.border * g.box_size := by ring
      have er2 : (r + g.border + 1) * g.box_size =
          (r + g.border) * g.box_size + g.box_size := by ring
      omega

theorem C6_pixel_box_tiling_witness :
    (∀ row col : Int, pixel_box gAuto1 row col =
      (((col + gAuto1.border) * gAuto1.box_size + gAuto1.qr_offset_x,
        (row + gAuto1.border) * gAuto1.box_size + gAuto1.qr_offset_y),
       ((col + gAuto1.border) * gAuto1.box_size + gAuto1.qr_offset_x
          + gAuto1.box_size - 1,
        (row + gAuto1.border) * gAuto1.box_size + gAuto1.qr_offset_y
          + gAuto1.box_size - 1))) ∧
    (∀ r1 c1 r2 c2 : Int, 0 ≤ r1 → r1 < gAuto1.width → 0 ≤ c1 →
      c1 < gAuto1.width → 0 ≤ r2 → r2 < gAuto1.width → 0 ≤ c2 →
      c2 < gAuto1.width → (r1, c1) ≠ (r2, c2) →
      ∀ p : Int × Int,
        ¬(inPixelBox gAuto1 r1 c1 p ∧ inPixelBox gAuto1 r2 c2 p)) ∧
    (∀ p : Int × Int, inInterior gAuto1 p ↔
      ∃ r c : Int, 0 ≤ r ∧ r < gAuto1.width ∧ 0 ≤ c ∧ c < gAuto1.width ∧
        inPixelBox gAuto1 r c p) :=
  C6_pixel_box_tiling gAuto1 (by decide)

/-- C9: resolving a drawer alias that is missing from the backend's
`drawer_aliases` registry fails (with the dict `KeyError`), and the
failure surfaces during construction, before any geometry is computed
or pixel drawn; resolving a registered alias returns an instance built
from the registered drawer class and its registered default
arguments. -/
theorem C9_alias_resolution (aliases : DrawerAliases) (default_cls : String)
    (sU sK : String) (ed : DrawerArg) (border width bs : Int)
    (qs : Option Int) (cls : String) (kwargs : List (String × String))
    (hU : aliases.lookup sU = none)
    (hK : aliases.lookup sK = some (cls, kwargs)) :
    get_drawer aliases (.name sU) = .error "KeyError" ∧
    mkImageWithDrawer aliases default_cls (.name sU) ed border width bs qs
      = .error "KeyError" ∧
    get_drawer aliases (.name sK) = .ok (some ⟨cls, kwargs⟩) := by
  have hgU : get_drawer aliases (.name sU) = .error "KeyError" := by
    simp [get_drawer, hU]
  refine ⟨hgU, ?_, by simp [get_drawer, hK]⟩
  simp only [mkImageWithDrawer, hgU]
  rfl

theorem C9_alias_resolution_witness :
    get_drawer [("circle", ("CircleModuleDrawer", [("size_ratio", "1")]))]
        (.name "square") = .error "KeyError" ∧
    mkImageWithDrawer
        [("circle", ("CircleModuleDrawer", [("size_ratio", "1")]))]
        "SquareModuleDrawer" (.name "square") .noDrawer 4 21 10 none
      = .error "KeyError" ∧
    get_drawer [("circle", ("CircleModuleDrawer", [("size_ratio", "1")]))]
        (.name "circle")
      = .ok (some ⟨"CircleModuleDrawer", [("size_ratio", "1")]⟩) :=
  C9_alias_resolution
    [("circle", ("CircleModuleDrawer", [("size_ratio", "1")]))]
    "SquareModuleDrawer" "square" "circle" .noDrawer 4 21 10 none
    "CircleModuleDrawer" [("size_ratio", "1")] (by decide) (by decide)

/-- C7: in the streaming backend, border rows contain only light
pixels; in each emitted data row every dark module expands to exactly
`box_size` dark pixels and everything else (light modules, the side
border column blocks and the padding) is light; consequently the total
dark-pixel count of the whole stream is `box_size² ×` the number of
dark modules, and the fully-light (all `false`) 3×3 matrix with
`border = 0` renders with zero dark pixels anywhere. -/
theorem C7_streaming_light (g : Geometry) (m : List (List Bool)) :
    (∀ row ∈ border_rows_iter g, row.count 0 = 0) ∧
    ((data_rows g m).length = m.length * g.box_size.toNat ∧
      ∀ row ∈ data_rows g m, ∃ mr ∈ m, row = full_row g mr) ∧
    (∀ mr : List Bool, (full_row g mr).count 0 =
      g.box_size.toNat * mr.count true) ∧
    countDark (rows_iter g m) =
      g.box_size.toNat * g.box_size.toNat * darkModules m ∧
    mkGeometry 0 3 1 none = some gLight3 ∧
    countDark (rows_iter gLight3
      (List.replicate 3 (List.replicate 3 false))) = 0 := by
  refine ⟨?_, ⟨data_rows_length g m, fun row hrow => mem_data_rows hrow⟩,
    count_full_row g, countDark_rows_iter g m, by decide, ?_⟩
  · intro row hrow
    rw [List.eq_of_mem_replicate hrow]
    simp [border_row, List.count_append, count_pyRepl_zero]
  · rw [countDark_rows_iter]
    simp [darkModules, List.count_replicate]

/-- C10: the `box_size` constructor argument has no influence on the
computed geometry: two constructions that differ only in it produce
identical geometries (hence identical `box_size`, `pixel_size`,
`qr_offset_x`, `qr_offset_y`, `text_offset_y`, `pixel_width`,
`pixel_height` fields), whether or not `qr_size` is supplied. -/
theorem C10_box_size_arg_ignored (border width bs1 bs2 : Int)
    (qs : Option Int) :
    mkGeometry border width bs1 qs = mkGeometry border width bs2 qs := rfl

end QRCodeModel
